import Mathlib

/-!
Shallow embedding of the ArtsWave authentication backend (src/server.js).

The source is an Express application over a Mongoose `User` model.  Two
near-identical variants exist in the file; they share the schema, the
pre-save hashing hook, and the `/api/register` and `/api/login` handlers,
and differ only in that the second variant adds a constant
`token: 'mock-token-12345'` field to the successful login response.

Modelling decisions, each anchored in a source line:
* The Mongoose schema (lines 28-46): `username` required, unique,
  minlength 3, maxlength 30; `password` required, minlength 6;
  `createdAt` defaulting to the current time; `lastLogin` optional.
* Mongoose runs document validation before the user `pre('save')` hooks,
  so the hashing hook (lines 49-58) only fires on documents that passed
  validation, and the length checks apply to the plaintext password.
* The `unique: true` index is enforced by the storage engine at insert
  time; a violation surfaces as a rejected save (duplicate-key error),
  which the route's catch-all turns into a 500 response.
* `bcrypt` is an external library; it is modelled by its contract: `hash`
  produces an opaque string embedding the salt/cost parameters followed
  by a digest of the plaintext, and `compare` recomputes with the
  embedded parameters and tests equality.  Salt generation randomness is
  irrelevant to every property proved here, so the model uses one fixed
  cost-10 salt header.
* Timestamps (`Date.now()`) are external inputs, passed as a `Nat`
  argument to each operation.
* A missing request-body field and an empty-string field both fail the
  JavaScript truthiness test `!username || !password`; request fields are
  `Option String` and `falsy` covers both cases.
-/

namespace ArtsWave

/-- Fixed bcrypt salt/cost header used by the model of the external
`bcrypt` library (cost 10, as in `bcrypt.genSalt(10)` at line 52). -/
def bcryptSaltHeader : String := "$2b$10$N9qo8uLOickgx2ZMRZoMyO"

/-- Model of `bcrypt.hash` (line 53): an opaque string embedding the
salt/cost parameters followed by a digest of the plaintext. -/
def bcryptHash (p : String) : String := bcryptSaltHeader ++ p

/-- Model of `bcrypt.compare` (line 124): recompute the hash of the
candidate plaintext with the parameters embedded in the stored hash and
test for equality. -/
def bcryptCompare (p h : String) : Bool := h == bcryptHash p

/-- A Mongoose `User` document (schema at lines 28-46).  `password`
holds the plaintext before the pre-save hook runs and the bcrypt hash
afterwards, exactly as the mutable `this.password` field does in the
source.  `passwordModified` models Mongoose's dirty-tracking consulted
by `this.isModified('password')` (line 50); `isNew` models Mongoose's
new-document flag that decides between insert and update on save. -/
structure UserDoc where
  username : String
  password : String
  createdAt : Nat
  lastLogin : Option Nat
  passwordModified : Bool
  isNew : Bool
  deriving Repr, DecidableEq

/-- The persisted user collection. -/
abbrev DB := List UserDoc

/-- Model of `User.findOne({ username })` (lines 88 and 119). -/
def findOneD (db : DB) (u : String) : Option UserDoc :=
  db.find? (fun d => d.username == u)

/-- Storage and hashing events emitted by the handlers, in program
order: `findOne` and `insert`/`update` are storage round trips, `hashPw`
is the bcrypt hashing in the pre-save hook, `comparePw` the bcrypt
comparison during login. -/
inductive Ev where
  | findOne (u : String)
  | hashPw (p : String)
  | insert (u : String)
  | update (u : String)
  | comparePw (p : String)
  deriving Repr, DecidableEq

/-- An HTTP response: status code, the `success` and `message` body
fields, the optional top-level `token` field (second variant only), and
the optional `user` object rendered as its list of key/value pairs in
the order the source writes them. -/
structure Resp where
  status : Nat
  success : Bool
  message : String
  token : Option String
  user : Option (List (String × String))
  deriving Repr, DecidableEq

/-- Line 84 / 115: missing-field response. -/
def resp400 : Resp :=
  ⟨400, false, "Username and password are required", none, none⟩

/-- Line 90: duplicate-username response. -/
def resp409 : Resp :=
  ⟨409, false, "Username already exists", none, none⟩

/-- Lines 121 and 126: the two invalid-credential responses are one and
the same object in the source. -/
def resp401 : Resp :=
  ⟨401, false, "Invalid credentials", none, none⟩

/-- Line 106: registration catch-all. -/
def resp500reg : Resp :=
  ⟨500, false, "Internal server error during registration", none, none⟩

/-- Line 142: login catch-all. -/
def resp500login : Resp :=
  ⟨500, false, "Internal server error during login", none, none⟩

/-- Lines 96-103: successful registration body. -/
def resp201 (u : String) (createdAt : Nat) : Resp :=
  ⟨201, true, "User registered successfully", none,
    some [("username", u), ("createdAt", toString createdAt)]⟩

/-- Lines 132-139: successful login body (no token in the first
variant). -/
def resp200 (u : String) (lastLogin : Option Nat) : Resp :=
  ⟨200, true, "Login successful", none,
    some [("username", u),
          ("lastLogin", match lastLogin with
                        | some n => toString n
                        | none => "null")]⟩

/-- JavaScript truthiness test used by `!username || !password`
(lines 83 and 114): a field is falsy when absent or the empty string. -/
def falsy : Option String → Bool
  | none => true
  | some s => s == ""

/-- Mongoose document validation derived from the schema (lines 28-40):
`username` required with length in [3,30], `password` required with
length at least 6. -/
def validateDoc (d : UserDoc) : Bool :=
  d.username != "" && 3 ≤ d.username.length && d.username.length ≤ 30 &&
    d.password != "" && 6 ≤ d.password.length

/-- Outcome of a Mongoose `save()`: success with the new collection and
the saved document, a schema validation error, or a unique-index
duplicate-key error. -/
inductive SaveRes where
  | ok (db : DB) (d : UserDoc)
  | invalid
  | dupKey
  deriving Repr, DecidableEq

/-- Replace the stored document with the given username. -/
def updateDoc (db : DB) (d : UserDoc) : DB :=
  db.map (fun x => if x.username == d.username then d else x)

/-- Model of `doc.save()`: validation first, then the pre-save hook of
lines 49-58 (hash the password only when it was modified), then the
storage write — an insert guarded by the unique index on `username` for
a new document, an update in place otherwise. -/
def save (db : DB) (d : UserDoc) : SaveRes × List Ev :=
  if validateDoc d then
    let hd := if d.passwordModified then
        { d with password := bcryptHash d.password, passwordModified := false }
      else d
    let evs := if d.passwordModified then [Ev.hashPw d.password] else []
    if d.isNew then
      if db.any (fun x => x.username == d.username) then
        (SaveRes.dupKey, evs ++ [Ev.insert d.username])
      else
        (SaveRes.ok (db ++ [{ hd with isNew := false }]) { hd with isNew := false },
          evs ++ [Ev.insert d.username])
    else
      (SaveRes.ok (updateDoc db hd) hd, evs ++ [Ev.update d.username])
  else (SaveRes.invalid, [])

/-- The document built by `new User({ username, password })` at line 93,
with `createdAt` defaulted to the current time (line 43): the plaintext
password counts as modified and the document as new. -/
def regDocOf (u p : String) (t : Nat) : UserDoc :=
  { username := u, password := p, createdAt := t, lastLogin := none,
    passwordModified := true, isNew := true }

/-- The `POST /api/register` handler (lines 80-108): truthiness check,
`findOne` existence check, construction of the new document (with
`createdAt` defaulted to the current time `t`), and `save`.  Any error
thrown inside the `try` block — schema validation or duplicate key —
lands in the catch-all 500.  Returns the response, the resulting
collection, and the event trace. -/
def register (db : DB) (ou opw : Option String) (t : Nat) :
    Resp × DB × List Ev :=
  if falsy ou || falsy opw then (resp400, db, [])
  else
    let u := ou.getD ""
    let p := opw.getD ""
    match findOneD db u with
    | some _ => (resp409, db, [Ev.findOne u])
    | none =>
      match save db (regDocOf u p t) with
      | (SaveRes.ok db' d', evs) =>
        (resp201 d'.username d'.createdAt, db', Ev.findOne u :: evs)
      | (SaveRes.invalid, evs) => (resp500reg, db, Ev.findOne u :: evs)
      | (SaveRes.dupKey, evs) => (resp500reg, db, Ev.findOne u :: evs)

/-- The `POST /api/login` handler (lines 111-144, first variant):
truthiness check, `findOne` lookup, `bcrypt.compare` against the stored
hash, then `lastLogin := Date.now()` and `save`.  The fetched document
has clean dirty-flags, so the pre-save hook does not re-hash. -/
def login (db : DB) (ou opw : Option String) (t : Nat) :
    Resp × DB × List Ev :=
  if falsy ou || falsy opw then (resp400, db, [])
  else
    let u := ou.getD ""
    let p := opw.getD ""
    match findOneD db u with
    | none => (resp401, db, [Ev.findOne u])
    | some user =>
      if bcryptCompare p user.password then
        match save db { user with lastLogin := some t } with
        | (SaveRes.ok db' d', evs) =>
          (resp200 d'.username d'.lastLogin, db',
            Ev.findOne u :: Ev.comparePw p :: evs)
        | (SaveRes.invalid, evs) =>
          (resp500login, db, Ev.findOne u :: Ev.comparePw p :: evs)
        | (SaveRes.dupKey, evs) =>
          (resp500login, db, Ev.findOne u :: Ev.comparePw p :: evs)
      else (resp401, db, [Ev.findOne u, Ev.comparePw p])

/-- The `POST /api/login` handler of the second variant (lines 257-291):
identical to `login` except that the successful response additionally
carries the constant `token: 'mock-token-12345'` field (line 281). -/
def loginV2 (db : DB) (ou opw : Option String) (t : Nat) :
    Resp × DB × List Ev :=
  let (r, db', evs) := login db ou opw t
  if r.success then ({ r with token := some "mock-token-12345" }, db', evs)
  else (r, db', evs)

/-! ### Interleaving model of concurrent registrations

A register request interacts with storage in two separate round trips:
the `findOne` existence check (line 88) and the insert performed by
`save()` (line 94), the latter guarded by the storage engine's unique
index on `username`.  No in-process lock connects the two, so two
concurrent requests may interleave them arbitrarily.  A thread is the
storage-interacting part of one register call for a fixed username and
password (the truthiness check involves no storage and precedes the
first step; schema validation happens inside `save`, as in the model
above). -/

/-- Program counter of one in-flight register call: about to run
`findOne`, past a `findOne` that found nothing and about to `save`, or
finished with a response. -/
inductive TPhase where
  | atFind
  | atInsert
  | done (r : Resp)
  deriving Repr, DecidableEq

/-- The collection contains a document for `u`. -/
def hasU (db : DB) (u : String) : Bool :=
  db.any (fun x => x.username == u)

/-- One atomic storage step of a register call for `(u, p)` at time `t`:
the `findOne` check answers against the current collection, and the
insert step runs `save` (validation, hashing hook, unique-index insert)
against the collection as it stands when the insert executes.  A
rejected save — duplicate key or validation — is caught by the
handler's catch-all and answered with the 500 response. -/
def tstep (u p : String) (t : Nat) (ph : TPhase) (db : DB) : TPhase × DB :=
  match ph with
  | TPhase.atFind =>
    match findOneD db u with
    | some _ => (TPhase.done resp409, db)
    | none => (TPhase.atInsert, db)
  | TPhase.atInsert =>
    match save db (regDocOf u p t) with
    | (SaveRes.ok db' d', _) => (TPhase.done (resp201 d'.username d'.createdAt), db')
    | (SaveRes.invalid, _) => (TPhase.done resp500reg, db)
    | (SaveRes.dupKey, _) => (TPhase.done resp500reg, db)
  | TPhase.done r => (TPhase.done r, db)

/-- Joint state of two concurrent register calls for the same username
over the shared collection. -/
structure CState where
  a : TPhase
  b : TPhase
  db : DB
  deriving Repr, DecidableEq

/-- Run one step of the chosen thread (`true` steps the first thread);
a finished thread's step is a no-op. -/
def cstep (u p : String) (t1 t2 : Nat) (who : Bool) (s : CState) : CState :=
  if who then
    { s with a := (tstep u p t1 s.a s.db).1, db := (tstep u p t1 s.a s.db).2 }
  else
    { s with b := (tstep u p t2 s.b s.db).1, db := (tstep u p t2 s.b s.db).2 }

/-- Run a whole schedule (an arbitrary interleaving of the two
threads). -/
def crun (u p : String) (t1 t2 : Nat) (sched : List Bool) (s : CState) : CState :=
  sched.foldl (fun s w => cstep u p t1 t2 w s) s

/-- The thread finished with the 201 success response. -/
def TPhase.succeeded : TPhase → Bool
  | TPhase.done r => r.status == 201
  | _ => false

/-- The thread finished with a non-201 response. -/
def TPhase.failed : TPhase → Bool
  | TPhase.done r => r.status != 201
  | _ => false

/-- The thread finished. -/
def TPhase.isDone : TPhase → Bool
  | TPhase.done _ => true
  | _ => false

/-- The input lengths the schema admits: `username` non-empty with
length in [3,30], `password` non-empty with length at least 6. -/
def validInput (u p : String) : Bool :=
  u != "" && 3 ≤ u.length && u.length ≤ 30 && p != "" && 6 ≤ p.length

/-- Invariant of the two-thread register race for username `u`: the
collection contains `u` exactly when some thread has already succeeded,
at most one thread ever succeeds, every finished thread holds one of
the three responses the handler can produce, and a thread can only have
failed once the collection contains `u`. -/
def CInv (u : String) (t1 t2 : Nat) (s : CState) : Prop :=
  ((s.a.succeeded || s.b.succeeded) = hasU s.db u) ∧
  ¬(s.a.succeeded = true ∧ s.b.succeeded = true) ∧
  (∀ r, s.a = TPhase.done r → r = resp201 u t1 ∨ r = resp409 ∨ r = resp500reg) ∧
  (∀ r, s.b = TPhase.done r → r = resp201 u t2 ∨ r = resp409 ∨ r = resp500reg) ∧
  (s.a.failed = true → hasU s.db u = true) ∧
  (s.b.failed = true → hasU s.db u = true)

/-! ### Traces of API calls (the lastLogin lifecycle) -/

/-- An API call with its request fields. -/
inductive AOp where
  | reg (u p : String)
  | logn (u p : String)
  deriving Repr, DecidableEq

/-- Apply one API call at time `t`, recording a `(username, time)`
event for each successful login. -/
def applyOp (db : DB) : AOp → Nat → DB × List (String × Nat)
  | AOp.reg u p, t => ((register db (some u) (some p) t).2.1, [])
  | AOp.logn u p, t =>
    ((login db (some u) (some p) t).2.1,
      if (login db (some u) (some p) t).1.success then [(u, t)] else [])

/-- Run a list of timestamped API calls against the store. -/
def runOps (db : DB) : List (AOp × Nat) → DB × List (String × Nat)
  | [] => (db, [])
  | (o, t) :: rest =>
    ((runOps (applyOp db o t).1 rest).1,
      (applyOp db o t).2 ++ (runOps (applyOp db o t).1 rest).2)

/-- The successful-login times of user `u`, in order. -/
def loginsFor (u : String) (evs : List (String × Nat)) : List Nat :=
  (evs.filter (fun e => e.1 == u)).map (fun e => e.2)

/-- Documents at rest have clean Mongoose flags: nothing is dirty or
new once stored.  Every collection reachable from the empty one through
the two handlers satisfies this. -/
def CleanDB (db : DB) : Prop :=
  ∀ d ∈ db, d.passwordModified = false ∧ d.isNew = false

/-! ### Basic facts about the storage model -/

/-- The document stored by a successful registration: the plaintext has
been replaced by its bcrypt hash by the pre-save hook, and the dirty/new
flags are cleared. -/
def savedDocOf (u p : String) (t : Nat) : UserDoc :=
  { username := u, password := bcryptHash p, createdAt := t, lastLogin := none,
    passwordModified := false, isNew := false }

theorem validateDoc_regDocOf (u p : String) (t : Nat) :
    validateDoc (regDocOf u p t) = validInput u p := rfl

/-- Computation of `save` on a freshly constructed registration
document: validation first, then hash-and-insert guarded by the unique
index. -/
theorem save_regDocOf (db : DB) (u p : String) (t : Nat) :
    save db (regDocOf u p t) =
      if validInput u p then
        if hasU db u then (SaveRes.dupKey, [Ev.hashPw p, Ev.insert u])
        else (SaveRes.ok (db ++ [savedDocOf u p t]) (savedDocOf u p t),
              [Ev.hashPw p, Ev.insert u])
      else (SaveRes.invalid, []) := rfl

theorem findOneD_none_iff {db : DB} {u : String} :
    findOneD db u = none ↔ hasU db u = false := by
  simp [findOneD, hasU, List.find?_eq_none, List.any_eq_false]

theorem hasU_of_findOneD_some {db : DB} {u : String} {d : UserDoc}
    (h : findOneD db u = some d) : hasU db u = true := by
  unfold findOneD at h
  have hp := @List.find?_some UserDoc (fun x => x.username == u) d db h
  unfold hasU
  exact List.any_eq_true.mpr ⟨d, List.mem_of_find?_eq_some h, hp⟩

theorem username_of_findOneD_some {db : DB} {u : String} {d : UserDoc}
    (h : findOneD db u = some d) : d.username = u := by
  unfold findOneD at h
  have hp := @List.find?_some UserDoc (fun x => x.username == u) d db h
  exact beq_iff_eq.mp hp

theorem findOneD_isSome_of_hasU {db : DB} {u : String}
    (h : hasU db u = true) : (findOneD db u).isSome = true := by
  rcases List.any_eq_true.mp h with ⟨d, hm, hp⟩
  cases hf : findOneD db u with
  | some _ => rfl
  | none => exact absurd hp (List.find?_eq_none.mp hf d hm)

theorem hasU_append (db : DB) (d : UserDoc) (u : String) :
    hasU (db ++ [d]) u = (hasU db u || (d.username == u)) := by
  simp [hasU, List.any_append]

/-- `updateDoc` replaces a document by one with the same username, so
each position's username is unchanged. -/
theorem username_updateField (hd x : UserDoc) :
    (if x.username == hd.username then hd else x).username = x.username := by
  split
  · next h => exact (beq_iff_eq.mp h).symm
  · rfl

theorem findOneD_updateDoc (db : DB) (hd : UserDoc) (u : String) :
    findOneD (updateDoc db hd) u =
      Option.map (fun x => if x.username == hd.username then hd else x)
        (findOneD db u) := by
  unfold findOneD updateDoc
  rw [List.find?_map]
  have hfe : ((fun d : UserDoc => d.username == u) ∘
        fun x => if x.username == hd.username then hd else x) =
      fun d : UserDoc => d.username == u := by
    funext x
    show ((if x.username == hd.username then hd else x).username == u) =
      (x.username == u)
    rw [username_updateField]
  rw [hfe]

theorem hasU_updateDoc (db : DB) (hd : UserDoc) (u : String) :
    hasU (updateDoc db hd) u = hasU db u := by
  unfold hasU updateDoc
  rw [List.any_map]
  have hfe : ((fun x : UserDoc => x.username == u) ∘
        fun x => if x.username == hd.username then hd else x) =
      fun x : UserDoc => x.username == u := by
    funext x
    show ((if x.username == hd.username then hd else x).username == u) =
      (x.username == u)
    rw [username_updateField]
  rw [hfe]

/-- Full characterization of the register handler on present fields:
truthiness check, then the `findOne` duplicate check, then save — whose
schema validation failure is caught as the 500 response. -/
theorem register_eq (db : DB) (u p : String) (t : Nat) :
    register db (some u) (some p) t =
      if u == "" || p == "" then (resp400, db, [])
      else
        match findOneD db u with
        | some _ => (resp409, db, [Ev.findOne u])
        | none =>
          if validInput u p then
            (resp201 u t, db ++ [savedDocOf u p t],
              [Ev.findOne u, Ev.hashPw p, Ev.insert u])
          else (resp500reg, db, [Ev.findOne u]) := by
  unfold register
  simp only [falsy, Option.getD_some]
  by_cases h1 : (u == "" || p == "") = true
  · simp [h1]
  · simp only [h1, if_false]
    cases hf : findOneD db u with
    | some d => simp [hf]
    | none =>
      have hnf : hasU db u = false := findOneD_none_iff.mp hf
      by_cases hv : validInput u p
      · simp [hf, save_regDocOf, hnf, hv, savedDocOf]
      · simp [hf, save_regDocOf, hnf, hv]

/-! ### Characterization of the login handler -/

theorem login_eq_missing (db : DB) (ou opw : Option String) (t : Nat)
    (h : (falsy ou || falsy opw) = true) :
    login db ou opw t = (resp400, db, []) := by
  unfold login
  simp [h]

theorem login_eq_notfound (db : DB) (u p : String) (t : Nat)
    (hu : (u == "") = false) (hp : (p == "") = false)
    (hf : findOneD db u = none) :
    login db (some u) (some p) t = (resp401, db, [Ev.findOne u]) := by
  unfold login
  simp [falsy, hu, hp, hf]

theorem login_eq_wrongpw (db : DB) (u p : String) (t : Nat) (d : UserDoc)
    (hu : (u == "") = false) (hp : (p == "") = false)
    (hf : findOneD db u = some d)
    (hc : bcryptCompare p d.password = false) :
    login db (some u) (some p) t =
      (resp401, db, [Ev.findOne u, Ev.comparePw p]) := by
  unfold login
  simp [falsy, hu, hp, hf, hc]

/-- `save` on a document fetched from storage (clean dirty/new flags):
the pre-save hook does not re-hash, and the write is an in-place
update. -/
theorem save_clean_update (db : DB) (d : UserDoc)
    (hm : d.passwordModified = false) (hn : d.isNew = false) :
    save db d =
      if validateDoc d then (SaveRes.ok (updateDoc db d) d, [Ev.update d.username])
      else (SaveRes.invalid, []) := by
  unfold save
  simp [hm, hn]

theorem login_eq_success (db : DB) (u p : String) (t : Nat) (d : UserDoc)
    (hu : (u == "") = false) (hp : (p == "") = false)
    (hf : findOneD db u = some d)
    (hc : bcryptCompare p d.password = true)
    (hm : d.passwordModified = false) (hn : d.isNew = false)
    (hv : validateDoc { d with lastLogin := some t } = true) :
    login db (some u) (some p) t =
      (resp200 u (some t), updateDoc db { d with lastLogin := some t },
        [Ev.findOne u, Ev.comparePw p, Ev.update u]) := by
  have hun : d.username = u := username_of_findOneD_some hf
  have hm' : ({ d with lastLogin := some t } : UserDoc).passwordModified = false := hm
  have hn' : ({ d with lastLogin := some t } : UserDoc).isNew = false := hn
  unfold login
  simp only [falsy, Option.getD_some, hu, hp, hf, hc]
  rw [save_clean_update db { d with lastLogin := some t } hm' hn']
  rw [hun] at hv
  simp [hv, hun]

/-! ### bcrypt contract facts and response shapes -/

theorem bcryptCompare_hash (p : String) : bcryptCompare p (bcryptHash p) = true := by
  simp [bcryptCompare]

theorem bcryptHash_ne_plaintext (p : String) : bcryptHash p ≠ p := by
  intro h
  have hl := congrArg String.length h
  rw [bcryptHash, String.length_append] at hl
  have h29 : bcryptSaltHeader.length = 29 := by decide
  omega

theorem findOneD_append_fresh (db : DB) (u : String) (d : UserDoc)
    (hf : findOneD db u = none) (hd : d.username = u) :
    findOneD (db ++ [d]) u = some d := by
  unfold findOneD at hf ⊢
  rw [List.find?_append, hf]
  simp [List.find?, hd]

/-- Every register response is one of the four responses the handler
constructs. -/
theorem register_resp_shape (db : DB) (ou opw : Option String) (t : Nat) :
    (register db ou opw t).1 = resp400 ∨ (register db ou opw t).1 = resp409 ∨
    (register db ou opw t).1 = resp500reg ∨
    ∃ u c, (register db ou opw t).1 = resp201 u c := by
  unfold register
  by_cases hfal : (falsy ou || falsy opw) = true
  · simp [hfal]
  · simp only [hfal, if_false]
    cases hf : findOneD db (ou.getD "") with
    | some d => simp [hf]
    | none =>
      rcases hs : save db (regDocOf (ou.getD "") (opw.getD "") t) with ⟨sr, evs⟩
      cases sr with
      | ok db' d' =>
        refine Or.inr (Or.inr (Or.inr ⟨d'.username, d'.createdAt, ?_⟩))
        simp [hf, hs]
      | invalid => simp [hf, hs]
      | dupKey => simp [hf, hs]

/-- Every login response is one of the four responses the handler
constructs. -/
theorem login_resp_shape (db : DB) (ou opw : Option String) (t : Nat) :
    (login db ou opw t).1 = resp400 ∨ (login db ou opw t).1 = resp401 ∨
    (login db ou opw t).1 = resp500login ∨
    ∃ u l, (login db ou opw t).1 = resp200 u l := by
  unfold login
  by_cases hfal : (falsy ou || falsy opw) = true
  · simp [hfal]
  · simp only [hfal, if_false]
    cases hf : findOneD db (ou.getD "") with
    | none => simp [hf]
    | some d =>
      by_cases hc : bcryptCompare (opw.getD "") d.password = true
      · rcases hs : save db { d with lastLogin := some t } with ⟨sr, evs⟩
        cases sr with
        | ok db' d' =>
          refine Or.inr (Or.inr (Or.inr ⟨d'.username, d'.lastLogin, ?_⟩))
          simp [hf, hc, hs]
        | invalid => simp [hf, hc, hs]
        | dupKey => simp [hf, hc, hs]
      · simp [hf, hc]

/-- A failed login performs no write: every failure path returns before
`user.save()`. -/
theorem login_fail_frame (db : DB) (ou opw : Option String) (t : Nat)
    (h : (login db ou opw t).1.success = false) :
    (login db ou opw t).2.1 = db := by
  unfold login at h ⊢
  by_cases hfal : (falsy ou || falsy opw) = true
  · simp [hfal]
  · simp only [hfal, if_false] at h ⊢
    cases hf : findOneD db (ou.getD "") with
    | none => simp [hf]
    | some d =>
      by_cases hc : bcryptCompare (opw.getD "") d.password = true
      · rcases hs : save db { d with lastLogin := some t } with ⟨sr, evs⟩
        cases sr with
        | ok db' d' =>
          simp only [hf, hc, if_true, hs] at h
          simp [resp200] at h
        | invalid => simp [hf, hc, hs]
        | dupKey => simp [hf, hc, hs]
      · simp [hf, hc]

theorem register_eq_missing (db : DB) (ou opw : Option String) (t : Nat)
    (h : (falsy ou || falsy opw) = true) :
    register db ou opw t = (resp400, db, []) := by
  unfold register
  simp [h]

theorem register_eq_dup (db : DB) (u p : String) (t : Nat) (d : UserDoc)
    (hu : (u == "") = false) (hp : (p == "") = false)
    (hf : findOneD db u = some d) :
    register db (some u) (some p) t = (resp409, db, [Ev.findOne u]) := by
  rw [register_eq]
  have hcond : (u == "" || p == "") = false := by rw [hu, hp]; rfl
  simp [hcond, hf]

theorem register_eq_invalid (db : DB) (u p : String) (t : Nat)
    (hu : (u == "") = false) (hp : (p == "") = false)
    (hv : validInput u p = false) (hf : findOneD db u = none) :
    register db (some u) (some p) t = (resp500reg, db, [Ev.findOne u]) := by
  rw [register_eq]
  have hcond : (u == "" || p == "") = false := by rw [hu, hp]; rfl
  simp [hcond, hf, hv]

theorem validInput_nonempty {u p : String} (hv : validInput u p = true) :
    (u == "") = false ∧ (p == "") = false := by
  unfold validInput at hv
  simp only [Bool.and_eq_true, bne_iff_ne, ne_eq] at hv
  obtain ⟨⟨⟨⟨hu, _⟩, _⟩, hp⟩, _⟩ := hv
  exact ⟨beq_eq_false_iff_ne.mpr hu, beq_eq_false_iff_ne.mpr hp⟩

theorem register_eq_success (db : DB) (u p : String) (t : Nat)
    (hv : validInput u p = true) (hf : findOneD db u = none) :
    register db (some u) (some p) t =
      (resp201 u t, db ++ [savedDocOf u p t],
        [Ev.findOne u, Ev.hashPw p, Ev.insert u]) := by
  obtain ⟨hu, hp⟩ := validInput_nonempty hv
  rw [register_eq]
  have hcond : (u == "" || p == "") = false := by rw [hu, hp]; rfl
  simp [hcond, hf, hv]

theorem login_token_none (db : DB) (ou opw : Option String) (t : Nat) :
    (login db ou opw t).1.token = none := by
  rcases login_resp_shape db ou opw t with h | h | h | ⟨u, l, h⟩ <;> rw [h] <;> rfl

theorem loginV2_user_eq (db : DB) (ou opw : Option String) (t : Nat) :
    (loginV2 db ou opw t).1.user = (login db ou opw t).1.user := by
  unfold loginV2
  rcases hl : login db ou opw t with ⟨r, db', evs⟩
  by_cases hs : r.success = true <;> simp [hs]

theorem loginV2_token_shape (db : DB) (ou opw : Option String) (t : Nat) :
    (loginV2 db ou opw t).1.token = none ∨
    (loginV2 db ou opw t).1.token = some "mock-token-12345" := by
  have hn := login_token_none db ou opw t
  unfold loginV2
  rcases hl : login db ou opw t with ⟨r, db', evs⟩
  rw [hl] at hn
  have hn' : r.token = none := hn
  by_cases hs : r.success = true <;> simp [hs, hn']

/-! ### Claim theorems -/

/-- C1 (amended): the register handler's status is fully determined as
follows: an absent or empty field yields the 400 response; with both
fields non-empty, a schema length violation (username outside [3,30] or
password shorter than 6) is only detected inside `save`, whose rejected
promise lands in the catch-all, yielding the 500 response — not 400 —
when the username is not already taken (the `findOne` 409 check runs
first); inputs within the bounds never fail validation and yield 201 or
409. -/
theorem register_validation_status (db : DB) (u p : String) (t : Nat) :
    (register db (some u) (some p) t).1.status =
      if u == "" || p == "" then 400
      else if (findOneD db u).isSome then 409
      else if validInput u p then 201
      else 500 := by
  rw [register_eq]
  by_cases h1 : (u == "" || p == "") = true
  · simp [h1, resp400]
  · simp only [h1, if_false]
    cases hf : findOneD db u with
    | some d => simp [hf, resp409]
    | none =>
      by_cases hv : validInput u p
      · simp [hf, hv, resp201]
      · simp [hf, hv, resp500reg]

/-- C1 counterexample: a register call with a username of length 2 and
a valid password does fail, but with status 500 (the schema validation
error is caught by the catch-all), not with the 400 validation
response the claim asserts. -/
theorem register_short_username_not_400 :
    (register [] (some "ab") (some "secret1") 0).1.status = 500 ∧
    (register [] (some "ab") (some "secret1") 0).1.success = false ∧
    ¬(register [] (some "ab") (some "secret1") 0).1.status = 400 := by decide

/-- C2: a login with an existing username but wrong password and a
login with a nonexistent username return the very same response — the
401 `Invalid credentials` object — so the response does not reveal
whether the username exists. -/
theorem login_invalid_credentials_indistinguishable (db : DB)
    (u1 p1 u2 p2 : String) (t1 t2 : Nat) (d : UserDoc)
    (hu1 : (u1 == "") = false) (hp1 : (p1 == "") = false)
    (hu2 : (u2 == "") = false) (hp2 : (p2 == "") = false)
    (hf1 : findOneD db u1 = some d)
    (hc : bcryptCompare p1 d.password = false)
    (hf2 : findOneD db u2 = none) :
    (login db (some u1) (some p1) t1).1 = (login db (some u2) (some p2) t2).1 ∧
    (login db (some u1) (some p1) t1).1 = resp401 ∧
    (login db (some u1) (some p1) t1).1.message =
      (login db (some u2) (some p2) t2).1.message := by
  rw [login_eq_wrongpw db u1 p1 t1 d hu1 hp1 hf1 hc,
    login_eq_notfound db u2 p2 t2 hu2 hp2 hf2]
  exact ⟨rfl, rfl, rfl⟩

theorem login_invalid_credentials_indistinguishable_witness :
    (login [savedDocOf "alice" "secret1" 0] (some "alice") (some "wrong1") 3).1 =
      (login [savedDocOf "alice" "secret1" 0] (some "bob") (some "whatever") 4).1 ∧
    (login [savedDocOf "alice" "secret1" 0] (some "alice") (some "wrong1") 3).1 =
      resp401 ∧
    (login [savedDocOf "alice" "secret1" 0] (some "alice") (some "wrong1") 3).1.message =
      (login [savedDocOf "alice" "secret1" 0] (some "bob") (some "whatever") 4).1.message :=
  login_invalid_credentials_indistinguishable [savedDocOf "alice" "secret1" 0]
    "alice" "wrong1" "bob" "whatever" 3 4 (savedDocOf "alice" "secret1" 0)
    (by decide) (by decide) (by decide) (by decide) (by decide) (by decide) (by decide)

/-- C5: after a successful registration the stored document's password
field is the bcrypt hash of the plaintext: verifying the plaintext
against it succeeds, and the stored hash differs from the plaintext. -/
theorem register_hash_verify_roundtrip (db : DB) (u p : String) (t : Nat)
    (hv : validInput u p = true) (hf : findOneD db u = none) :
    (register db (some u) (some p) t).1 = resp201 u t ∧
    findOneD (register db (some u) (some p) t).2.1 u = some (savedDocOf u p t) ∧
    bcryptCompare p (savedDocOf u p t).password = true ∧
    (savedDocOf u p t).password ≠ p := by
  rw [register_eq_success db u p t hv hf]
  exact ⟨rfl, findOneD_append_fresh db u (savedDocOf u p t) hf rfl,
    bcryptCompare_hash p, bcryptHash_ne_plaintext p⟩

theorem register_hash_verify_roundtrip_witness :
    (register [] (some "alice") (some "secret1") 0).1 = resp201 "alice" 0 ∧
    findOneD (register [] (some "alice") (some "secret1") 0).2.1 "alice" =
      some (savedDocOf "alice" "secret1" 0) ∧
    bcryptCompare "secret1" (savedDocOf "alice" "secret1" 0).password = true ∧
    (savedDocOf "alice" "secret1" 0).password ≠ "secret1" :=
  register_hash_verify_roundtrip [] "alice" "secret1" 0 (by decide) (by decide)

/-- C7: a successful login writes back exactly the fetched document
with only `lastLogin` replaced — `password`, `createdAt` and `username`
are untouched, the pre-save hook does not re-hash (the password is not
dirty), and every other user's stored document is unchanged. -/
theorem login_updates_only_lastLogin (db : DB) (u p : String) (t : Nat)
    (d : UserDoc)
    (hu : (u == "") = false) (hp : (p == "") = false)
    (hf : findOneD db u = some d)
    (hc : bcryptCompare p d.password = true)
    (hm : d.passwordModified = false) (hn : d.isNew = false)
    (hv : validateDoc { d with lastLogin := some t } = true) :
    (login db (some u) (some p) t).1 = resp200 u (some t) ∧
    findOneD (login db (some u) (some p) t).2.1 u =
      some { d with lastLogin := some t } ∧
    ({ d with lastLogin := some t } : UserDoc).password = d.password ∧
    ({ d with lastLogin := some t } : UserDoc).createdAt = d.createdAt ∧
    ({ d with lastLogin := some t } : UserDoc).username = d.username ∧
    ∀ v, v ≠ u → findOneD (login db (some u) (some p) t).2.1 v = findOneD db v := by
  rw [login_eq_success db u p t d hu hp hf hc hm hn hv]
  have hun : d.username = u := username_of_findOneD_some hf
  refine ⟨rfl, ?_, rfl, rfl, rfl, ?_⟩
  · rw [findOneD_updateDoc, hf]
    simp
  · intro v hvne
    rw [findOneD_updateDoc]
    cases hfv : findOneD db v with
    | none => rfl
    | some x =>
      have hx : x.username = v := username_of_findOneD_some hfv
      simp [hx, hun, hvne]

theorem login_updates_only_lastLogin_witness :
    (login [savedDocOf "alice" "secret1" 0] (some "alice") (some "secret1") 7).1 =
      resp200 "alice" (some 7) ∧
    findOneD (login [savedDocOf "alice" "secret1" 0]
        (some "alice") (some "secret1") 7).2.1 "alice" =
      some { savedDocOf "alice" "secret1" 0 with lastLogin := some 7 } ∧
    ({ savedDocOf "alice" "secret1" 0 with lastLogin := some 7 } : UserDoc).password =
      (savedDocOf "alice" "secret1" 0).password ∧
    ({ savedDocOf "alice" "secret1" 0 with lastLogin := some 7 } : UserDoc).createdAt =
      (savedDocOf "alice" "secret1" 0).createdAt ∧
    ({ savedDocOf "alice" "secret1" 0 with lastLogin := some 7 } : UserDoc).username =
      (savedDocOf "alice" "secret1" 0).username ∧
    ∀ v, v ≠ "alice" →
      findOneD (login [savedDocOf "alice" "secret1" 0]
          (some "alice") (some "secret1") 7).2.1 v =
        findOneD [savedDocOf "alice" "secret1" 0] v :=
  login_updates_only_lastLogin [savedDocOf "alice" "secret1" 0] "alice" "secret1" 7
    (savedDocOf "alice" "secret1" 0)
    (by decide) (by decide) (by decide) (by decide) (by decide) (by decide) (by decide)

/-- C8: no response ever carries the password hash: a successful
register's `user` object has exactly the keys `username` and
`createdAt`, a successful login's exactly `username` and `lastLogin`,
failure responses carry no `user` object at all, and the only token
ever issued (second variant) is the constant mock string. -/
theorem responses_never_contain_password_hash (db : DB)
    (ou opw : Option String) (t : Nat) :
    ((register db ou opw t).1.user.map (fun l => l.map Prod.fst) = none ∨
      (register db ou opw t).1.user.map (fun l => l.map Prod.fst) =
        some ["username", "createdAt"]) ∧
    ((login db ou opw t).1.user.map (fun l => l.map Prod.fst) = none ∨
      (login db ou opw t).1.user.map (fun l => l.map Prod.fst) =
        some ["username", "lastLogin"]) ∧
    (loginV2 db ou opw t).1.user = (login db ou opw t).1.user ∧
    (login db ou opw t).1.token = none ∧
    ((loginV2 db ou opw t).1.token = none ∨
      (loginV2 db ou opw t).1.token = some "mock-token-12345") := by
  refine ⟨?_, ?_, loginV2_user_eq db ou opw t, login_token_none db ou opw t,
    loginV2_token_shape db ou opw t⟩
  · rcases register_resp_shape db ou opw t with h | h | h | ⟨u, c, h⟩ <;>
      rw [h] <;> simp [resp400, resp409, resp500reg, resp201]
  · rcases login_resp_shape db ou opw t with h | h | h | ⟨u, l, h⟩ <;>
      rw [h] <;> simp [resp400, resp401, resp500login, resp200]

/-- C9 (amended): no password hashing ever happens before a register
validation failure is returned, and the missing-field check indeed
precedes every storage call; but a length-invalid input with both
fields non-empty reaches the `findOne` duplicate lookup — one storage
read — before the save-time validation failure surfaces. -/
theorem register_events_before_validation_failure (db : DB)
    (ou opw : Option String) (u p : String) (t : Nat) :
    ((falsy ou || falsy opw) = true → (register db ou opw t).2.2 = []) ∧
    ((u == "") = false → (p == "") = false → validInput u p = false →
      findOneD db u = none →
      (register db (some u) (some p) t).2.2 = [Ev.findOne u] ∧
      (register db (some u) (some p) t).1 = resp500reg) ∧
    ((register db (some u) (some p) t).1.success = false →
      ∀ q, Ev.hashPw q ∉ (register db (some u) (some p) t).2.2) := by
  refine ⟨?_, ?_, ?_⟩
  · intro h
    unfold register
    simp [h]
  · intro hu hp hv hf
    rw [register_eq]
    have hcond : (u == "" || p == "") = false := by rw [hu, hp]; rfl
    simp [hcond, hf, hv]
  · intro hfail q
    by_cases h1 : (falsy (some u) || falsy (some p)) = true
    · rw [register_eq_missing db (some u) (some p) t h1]
      simp
    · have hor : (u == "" || p == "") = false := by
        have heq : (falsy (some u) || falsy (some p)) = (u == "" || p == "") := rfl
        rw [heq] at h1
        exact Bool.eq_false_iff.mpr h1
      obtain ⟨hu, hp⟩ := Bool.or_eq_false_iff.mp hor
      cases hf : findOneD db u with
      | some d =>
        rw [register_eq_dup db u p t d hu hp hf]
        simp
      | none =>
        by_cases hv : validInput u p = true
        · rw [register_eq_success db u p t hv hf] at hfail
          simp [resp201] at hfail
        · rw [register_eq_invalid db u p t hu hp (by simpa using hv) hf]
          simp

theorem register_events_before_validation_failure_witness :
    (register [] (some "ab") (some "secret1") 0).2.2 = [Ev.findOne "ab"] ∧
    (register [] (some "ab") (some "secret1") 0).1 = resp500reg :=
  (register_events_before_validation_failure [] (some "ab") (some "secret1")
      "ab" "secret1" 0).2.1
    (by decide) (by decide) (by decide) (by decide)

/-- C9 counterexample: on a length-invalid register call with both
fields present, a storage call (the `findOne` duplicate lookup) is
performed before the validation failure is returned, contradicting the
claim that no storage call precedes it. -/
theorem register_storage_read_before_validation_failure :
    (register [] (some "ab") (some "secret1") 0).1.success = false ∧
    Ev.findOne "ab" ∈ (register [] (some "ab") (some "secret1") 0).2.2 := by decide

/-- C10: every failed login — missing fields, unknown username, or
wrong password — leaves the persisted store exactly as it was. -/
theorem login_failure_leaves_store_unchanged (db : DB)
    (ou opw : Option String) (t : Nat)
    (h : (login db ou opw t).1.success = false) :
    (login db ou opw t).2.1 = db :=
  login_fail_frame db ou opw t h

theorem login_failure_leaves_store_unchanged_witness :
    (login [savedDocOf "alice" "secret1" 0] (some "alice") (some "wrong1") 3).2.1 =
      [savedDocOf "alice" "secret1" 0] :=
  login_failure_leaves_store_unchanged [savedDocOf "alice" "secret1" 0]
    (some "alice") (some "wrong1") 3 (by decide)

/-! ### The two-thread register race -/

/-- A finished thread that failed did not succeed. -/
theorem tphase_succeeded_false_of_failed {ph : TPhase} (h : ph.failed = true) :
    ph.succeeded = false := by
  cases ph with
  | done r =>
    simp only [TPhase.failed, bne_iff_ne, ne_eq] at h
    simp [TPhase.succeeded, h]
  | atFind => rfl
  | atInsert => rfl

/-- Exhaustive characterization of one thread step. -/
theorem tstep_char (u p : String) (t : Nat) (hv : validInput u p = true)
    (ph : TPhase) (db : DB) :
    (ph.isDone = true ∧ tstep u p t ph db = (ph, db)) ∨
    (ph = TPhase.atFind ∧ hasU db u = true ∧
      tstep u p t ph db = (TPhase.done resp409, db)) ∨
    (ph = TPhase.atFind ∧ hasU db u = false ∧
      tstep u p t ph db = (TPhase.atInsert, db)) ∨
    (ph = TPhase.atInsert ∧ hasU db u = true ∧
      tstep u p t ph db = (TPhase.done resp500reg, db)) ∨
    (ph = TPhase.atInsert ∧ hasU db u = false ∧
      tstep u p t ph db = (TPhase.done (resp201 u t), db ++ [savedDocOf u p t])) := by
  cases ph with
  | atFind =>
    cases hf : findOneD db u with
    | some d =>
      refine Or.inr (Or.inl ⟨rfl, hasU_of_findOneD_some hf, ?_⟩)
      simp [tstep, hf]
    | none =>
      refine Or.inr (Or.inr (Or.inl ⟨rfl, findOneD_none_iff.mp hf, ?_⟩))
      simp [tstep, hf]
  | atInsert =>
    cases hU : hasU db u with
    | true =>
      refine Or.inr (Or.inr (Or.inr (Or.inl ⟨rfl, rfl, ?_⟩)))
      simp [tstep, save_regDocOf, hU, hv]
    | false =>
      refine Or.inr (Or.inr (Or.inr (Or.inr ⟨rfl, rfl, ?_⟩)))
      simp [tstep, save_regDocOf, hU, hv, savedDocOf, resp201]
  | done r => exact Or.inl ⟨rfl, rfl⟩

/-- One thread's step preserves the race invariant, stated generically
in the stepping thread `phS` and the other thread `phO`. -/
theorem cinv_step_generic (u p : String) (tS tO : Nat)
    (phS phO : TPhase) (db : DB) (hv : validInput u p = true)
    (h1 : (phS.succeeded || phO.succeeded) = hasU db u)
    (h2 : ¬(phS.succeeded = true ∧ phO.succeeded = true))
    (h3 : ∀ r, phS = TPhase.done r →
      r = resp201 u tS ∨ r = resp409 ∨ r = resp500reg)
    (h4 : ∀ r, phO = TPhase.done r →
      r = resp201 u tO ∨ r = resp409 ∨ r = resp500reg)
    (h5 : phS.failed = true → hasU db u = true)
    (h6 : phO.failed = true → hasU db u = true) :
    (((tstep u p tS phS db).1.succeeded || phO.succeeded) =
        hasU (tstep u p tS phS db).2 u) ∧
    ¬((tstep u p tS phS db).1.succeeded = true ∧ phO.succeeded = true) ∧
    (∀ r, (tstep u p tS phS db).1 = TPhase.done r →
      r = resp201 u tS ∨ r = resp409 ∨ r = resp500reg) ∧
    (∀ r, phO = TPhase.done r →
      r = resp201 u tO ∨ r = resp409 ∨ r = resp500reg) ∧
    ((tstep u p tS phS db).1.failed = true → hasU (tstep u p tS phS db).2 u = true) ∧
    (phO.failed = true → hasU (tstep u p tS phS db).2 u = true) := by
  rcases tstep_char u p tS hv phS db with
    ⟨_, heq⟩ | ⟨hph, hU, heq⟩ | ⟨hph, hU, heq⟩ | ⟨hph, hU, heq⟩ | ⟨hph, hU, heq⟩
  · rw [heq]
    exact ⟨h1, h2, h3, h4, h5, h6⟩
  · subst hph
    rw [heq]
    refine ⟨h1, h2, ?_, h4, ?_, h6⟩
    · intro r hr
      cases hr
      exact Or.inr (Or.inl rfl)
    · intro _
      exact hU
  · subst hph
    rw [heq]
    refine ⟨h1, h2, ?_, h4, ?_, h6⟩
    · intro r hr
      exact TPhase.noConfusion hr
    · intro hfa
      exact absurd hfa (by simp [TPhase.failed])
  · subst hph
    rw [heq]
    refine ⟨h1, h2, ?_, h4, ?_, h6⟩
    · intro r hr
      cases hr
      exact Or.inr (Or.inr rfl)
    · intro _
      exact hU
  · subst hph
    rw [heq]
    have hO : phO.succeeded = false := by
      have h1' : (TPhase.atInsert.succeeded || phO.succeeded) = false := by
        rw [h1, hU]
      exact (Bool.or_eq_false_iff.mp h1').2
    have hU' : hasU (db ++ [savedDocOf u p tS]) u = true := by
      rw [hasU_append, hU]
      simp [savedDocOf]
    refine ⟨?_, ?_, ?_, h4, ?_, ?_⟩
    · rw [hU', hO]
      rfl
    · intro hcon
      rw [hO] at hcon
      exact absurd hcon.2 (by simp)
    · intro r hr
      cases hr
      exact Or.inl rfl
    · intro _
      exact hU'
    · intro _
      exact hU'

/-- A race step by either thread preserves the invariant. -/
theorem cstep_inv (u p : String) (t1 t2 : Nat) (hv : validInput u p = true)
    (who : Bool) (s : CState) (h : CInv u t1 t2 s) :
    CInv u t1 t2 (cstep u p t1 t2 who s) := by
  obtain ⟨h1, h2, h3, h4, h5, h6⟩ := h
  cases who with
  | true =>
    obtain ⟨g1, g2, g3, g4, g5, g6⟩ :=
      cinv_step_generic u p t1 t2 s.a s.b s.db hv h1 h2 h3 h4 h5 h6
    exact ⟨g1, g2, g3, g4, g5, g6⟩
  | false =>
    have h1' : (s.b.succeeded || s.a.succeeded) = hasU s.db u := by
      rw [Bool.or_comm]
      exact h1
    have h2' : ¬(s.b.succeeded = true ∧ s.a.succeeded = true) :=
      fun hc => h2 ⟨hc.2, hc.1⟩
    obtain ⟨g1, g2, g3, g4, g5, g6⟩ :=
      cinv_step_generic u p t2 t1 s.b s.a s.db hv h1' h2' h4 h3 h6 h5
    refine ⟨?_, fun hc => g2 ⟨hc.2, hc.1⟩, g4, g3, g6, g5⟩
    rw [Bool.or_comm]
    exact g1

/-- The invariant holds along any schedule. -/
theorem crun_inv (u p : String) (t1 t2 : Nat) (hv : validInput u p = true)
    (sched : List Bool) (s : CState) (h : CInv u t1 t2 s) :
    CInv u t1 t2 (crun u p t1 t2 sched s) := by
  induction sched generalizing s with
  | nil => exact h
  | cons w ws ih => exact ih _ (cstep_inv u p t1 t2 hv w s h)

/-- The invariant holds initially when the username is free. -/
theorem cinit_inv (u : String) (t1 t2 : Nat) (db0 : DB)
    (h0 : hasU db0 u = false) :
    CInv u t1 t2 ⟨TPhase.atFind, TPhase.atFind, db0⟩ := by
  refine ⟨?_, ?_, ?_, ?_, ?_, ?_⟩ <;>
    simp [TPhase.succeeded, TPhase.failed, h0]

/-- Of two concurrent registrations for a free username, under every
interleaving of their storage steps, exactly one succeeds with the 201
response and the other fails with either the 409 duplicate response
(its `findOne` saw the winner's insert) or the 500 response (its insert
hit the unique index and fell into the catch-all). -/
theorem concurrent_register_exactly_one (u p : String) (t1 t2 : Nat)
    (db0 : DB) (sched : List Bool) (hv : validInput u p = true)
    (h0 : hasU db0 u = false) (ra rb : Resp)
    (ha : (crun u p t1 t2 sched ⟨TPhase.atFind, TPhase.atFind, db0⟩).a =
      TPhase.done ra)
    (hb : (crun u p t1 t2 sched ⟨TPhase.atFind, TPhase.atFind, db0⟩).b =
      TPhase.done rb) :
    (ra = resp201 u t1 ∧ (rb = resp409 ∨ rb = resp500reg)) ∨
    (rb = resp201 u t2 ∧ (ra = resp409 ∨ ra = resp500reg)) := by
  obtain ⟨h1, h2, h3, h4, h5, h6⟩ :=
    crun_inv u p t1 t2 hv sched _ (cinit_inv u t1 t2 db0 h0)
  have hff : (crun u p t1 t2 sched ⟨TPhase.atFind, TPhase.atFind, db0⟩).a.failed
        = true →
      (crun u p t1 t2 sched ⟨TPhase.atFind, TPhase.atFind, db0⟩).b.failed = true →
      False := by
    intro hfa hfb
    rw [h5 hfa, tphase_succeeded_false_of_failed hfa,
      tphase_succeeded_false_of_failed hfb] at h1
    simp at h1
  rcases h3 ra ha with hra | hra | hra <;> rcases h4 rb hb with hrb | hrb | hrb
  · exfalso
    apply h2
    constructor
    · rw [ha, hra]
      rfl
    · rw [hb, hrb]
      rfl
  · exact Or.inl ⟨hra, Or.inl hrb⟩
  · exact Or.inl ⟨hra, Or.inr hrb⟩
  · exact Or.inr ⟨hrb, Or.inl hra⟩
  · exact (hff (by rw [ha, hra]; rfl) (by rw [hb, hrb]; rfl)).elim
  · exact (hff (by rw [ha, hra]; rfl) (by rw [hb, hrb]; rfl)).elim
  · exact Or.inr ⟨hrb, Or.inr hra⟩
  · exact (hff (by rw [ha, hra]; rfl) (by rw [hb, hrb]; rfl)).elim
  · exact (hff (by rw [ha, hra]; rfl) (by rw [hb, hrb]; rfl)).elim

/-- A thread that runs its two storage steps without interference
produces exactly the sequential handler's response and store. -/
theorem tstep_agrees_register (db : DB) (u p : String) (t : Nat)
    (hu : (u == "") = false) (hp : (p == "") = false) :
    tstep u p t (tstep u p t TPhase.atFind db).1 (tstep u p t TPhase.atFind db).2 =
      (TPhase.done (register db (some u) (some p) t).1,
        (register db (some u) (some p) t).2.1) := by
  cases hf : findOneD db u with
  | some d =>
    rw [register_eq_dup db u p t d hu hp hf]
    simp [tstep, hf]
  | none =>
    have hnf : hasU db u = false := findOneD_none_iff.mp hf
    by_cases hv : validInput u p = true
    · rw [register_eq_success db u p t hv hf]
      simp [tstep, hf, save_regDocOf, hnf, hv, savedDocOf, resp201]
    · rw [register_eq_invalid db u p t hu hp (by simpa using hv) hf]
      simp [tstep, hf, save_regDocOf, hnf, hv]

/-- C3 (amended): the unique index on `username` does make the insert
itself atomic, so of two concurrent registrations for a free username
exactly one succeeds under every interleaving; but the handler also
performs a separate `findOne` read before the insert (two distinct
storage events), and the losing request fails with either the 409
duplicate response or the generic 500 response (a unique-index
violation inside `save` lands in the catch-all), not always with the
duplicate-username error. -/
theorem register_uniqueness_is_storage_constraint (u p : String)
    (t1 t2 : Nat) (db0 : DB) (sched : List Bool)
    (hv : validInput u p = true) (h0 : hasU db0 u = false) (ra rb : Resp)
    (ha : (crun u p t1 t2 sched ⟨TPhase.atFind, TPhase.atFind, db0⟩).a =
      TPhase.done ra)
    (hb : (crun u p t1 t2 sched ⟨TPhase.atFind, TPhase.atFind, db0⟩).b =
      TPhase.done rb) :
    ((ra = resp201 u t1 ∧ (rb = resp409 ∨ rb = resp500reg)) ∨
     (rb = resp201 u t2 ∧ (ra = resp409 ∨ ra = resp500reg))) ∧
    (register db0 (some u) (some p) t1).2.2 =
      [Ev.findOne u, Ev.hashPw p, Ev.insert u] := by
  refine ⟨concurrent_register_exactly_one u p t1 t2 db0 sched hv h0 ra rb ha hb, ?_⟩
  have hf : findOneD db0 u = none := findOneD_none_iff.mpr h0
  rw [register_eq_success db0 u p t1 hv hf]

theorem register_uniqueness_is_storage_constraint_witness :
    ((resp201 "alice" 1 = resp201 "alice" 1 ∧
        (resp500reg = resp409 ∨ resp500reg = resp500reg)) ∨
      (resp500reg = resp201 "alice" 2 ∧
        (resp201 "alice" 1 = resp409 ∨ resp201 "alice" 1 = resp500reg))) ∧
    (register [] (some "alice") (some "secret1") 1).2.2 =
      [Ev.findOne "alice", Ev.hashPw "secret1", Ev.insert "alice"] :=
  register_uniqueness_is_storage_constraint "alice" "secret1" 1 2 []
    [true, false, true, false] (by decide) (by decide)
    (resp201 "alice" 1) resp500reg (by decide) (by decide)

/-- C3 counterexample: in the interleaving where both `findOne` checks
run before either insert, the losing request's response is the 500
internal-error response, not the 409 duplicate-username error the claim
requires; and a single registration performs the uniqueness check and
the insert as two separate storage events, not one. -/
theorem concurrent_register_loser_gets_500 :
    (crun "alice" "secret1" 1 2 [true, false, true, false]
      ⟨TPhase.atFind, TPhase.atFind, []⟩).a = TPhase.done (resp201 "alice" 1) ∧
    (crun "alice" "secret1" 1 2 [true, false, true, false]
      ⟨TPhase.atFind, TPhase.atFind, []⟩).b = TPhase.done resp500reg ∧
    resp500reg ≠ resp409 ∧
    (register [] (some "alice") (some "secret1") 1).2.2 =
      [Ev.findOne "alice", Ev.hashPw "secret1", Ev.insert "alice"] := by decide

/-- C4 (amended): sequentially, a second registration of an existing
username always fails with the 409 duplicate response; concurrently,
exactly one of two identical registrations succeeds under every
interleaving, but the loser fails with either the 409 response or the
generic 500 response — not always the duplicate-username error. -/
theorem register_same_username_twice (db : DB) (u p1 p2 : String)
    (t1 t2 : Nat) (hv : validInput u p1 = true) (hp2 : (p2 == "") = false)
    (hf : findOneD db u = none) (sched : List Bool) (ra rb : Resp)
    (ha : (crun u p1 t1 t2 sched ⟨TPhase.atFind, TPhase.atFind, db⟩).a =
      TPhase.done ra)
    (hb : (crun u p1 t1 t2 sched ⟨TPhase.atFind, TPhase.atFind, db⟩).b =
      TPhase.done rb) :
    (register ((register db (some u) (some p1) t1).2.1) (some u) (some p2) t2).1 =
      resp409 ∧
    ((ra = resp201 u t1 ∧ (rb = resp409 ∨ rb = resp500reg)) ∨
     (rb = resp201 u t2 ∧ (ra = resp409 ∨ ra = resp500reg))) := by
  have h0 : hasU db u = false := findOneD_none_iff.mp hf
  refine ⟨?_, concurrent_register_exactly_one u p1 t1 t2 db sched hv h0 ra rb ha hb⟩
  obtain ⟨hu, _⟩ := validInput_nonempty hv
  have hseq : (register db (some u) (some p1) t1).2.1 =
      db ++ [savedDocOf u p1 t1] := by
    rw [register_eq_success db u p1 t1 hv hf]
  have hfd : findOneD (db ++ [savedDocOf u p1 t1]) u = some (savedDocOf u p1 t1) :=
    findOneD_append_fresh db u (savedDocOf u p1 t1) hf rfl
  rw [hseq, register_eq_dup (db ++ [savedDocOf u p1 t1]) u p2 t2
    (savedDocOf u p1 t1) hu hp2 hfd]

theorem register_same_username_twice_witness :
    (register ((register [] (some "bob") (some "hunter2") 3).2.1)
        (some "bob") (some "hunter2") 4).1 = resp409 ∧
    ((resp500reg = resp201 "bob" 3 ∧
        (resp201 "bob" 4 = resp409 ∨ resp201 "bob" 4 = resp500reg)) ∨
      (resp201 "bob" 4 = resp201 "bob" 4 ∧
        (resp500reg = resp409 ∨ resp500reg = resp500reg))) :=
  register_same_username_twice [] "bob" "hunter2" "hunter2" 3 4
    (by decide) (by decide) (by decide) [false, true, false, true]
    resp500reg (resp201 "bob" 4) (by decide) (by decide)

/-- C4 counterexample: under the racing interleaving the second
(losing) registration's response has status 500, not the 409
duplicate-username error the claim requires for concurrent calls. -/
theorem concurrent_duplicate_not_409 :
    (crun "bob" "hunter2" 3 4 [false, true, false, true]
      ⟨TPhase.atFind, TPhase.atFind, []⟩).b = TPhase.done (resp201 "bob" 4) ∧
    (crun "bob" "hunter2" 3 4 [false, true, false, true]
      ⟨TPhase.atFind, TPhase.atFind, []⟩).a = TPhase.done resp500reg ∧
    resp500reg.status = 500 ∧ ¬resp500reg.status = 409 := by decide

/-! ### Trace lemmas for the lastLogin lifecycle -/

theorem cleanDB_nil : CleanDB [] := fun d hd => absurd hd (List.not_mem_nil d)

theorem cleanDB_append_saved (db : DB) (u p : String) (t : Nat)
    (h : CleanDB db) : CleanDB (db ++ [savedDocOf u p t]) := by
  intro d hd
  rcases List.mem_append.mp hd with hd' | hd'
  · exact h d hd'
  · rcases List.mem_singleton.mp hd' with rfl
    exact ⟨rfl, rfl⟩

theorem cleanDB_updateDoc (db : DB) (hd : UserDoc) (h : CleanDB db)
    (hc1 : hd.passwordModified = false) (hc2 : hd.isNew = false) :
    CleanDB (updateDoc db hd) := by
  intro d hdm
  rcases List.mem_map.mp hdm with ⟨y, hy, hfy⟩
  by_cases hcase : (y.username == hd.username) = true
  · rw [if_pos hcase] at hfy
    rw [← hfy]
    exact ⟨hc1, hc2⟩
  · rw [if_neg hcase] at hfy
    rw [← hfy]
    exact h y hy

theorem findOneD_append_cases {db : DB} {x d : UserDoc} {u : String}
    (h : findOneD (db ++ [x]) u = some d) :
    findOneD db u = some d ∨
      (findOneD db u = none ∧ d = x ∧ x.username = u) := by
  unfold findOneD at h ⊢
  rw [List.find?_append] at h
  cases hf : List.find? (fun d => d.username == u) db with
  | some y =>
    rw [hf] at h
    rw [Option.or_some] at h
    exact Or.inl h
  | none =>
    rw [hf] at h
    simp only [Option.or] at h
    by_cases hxu : (x.username == u) = true
    · simp only [List.find?, hxu] at h
      cases h
      exact Or.inr ⟨rfl, rfl, beq_iff_eq.mp hxu⟩
    · simp only [List.find?, hxu] at h
      cases h

theorem findOneD_append_none {db : DB} {x : UserDoc} {u : String}
    (h : findOneD (db ++ [x]) u = none) : findOneD db u = none := by
  unfold findOneD at h ⊢
  rw [List.find?_append] at h
  cases hf : List.find? (fun d => d.username == u) db with
  | some y =>
    rw [hf] at h
    simp at h
  | none => rfl

theorem loginsFor_append (u : String) (l1 l2 : List (String × Nat)) :
    loginsFor u (l1 ++ l2) = loginsFor u l1 ++ loginsFor u l2 := by
  simp [loginsFor, List.filter_append, List.map_append]

theorem runOps_append (db : DB) (l1 l2 : List (AOp × Nat)) :
    runOps db (l1 ++ l2) =
      ((runOps (runOps db l1).1 l2).1,
        (runOps db l1).2 ++ (runOps (runOps db l1).1 l2).2) := by
  induction l1 generalizing db with
  | nil => simp [runOps]
  | cons x rest ih =>
    rcases x with ⟨o, t⟩
    simp only [List.cons_append, runOps, List.append_eq, ih, List.append_assoc]

/-- A register call either leaves the collection unchanged (and fails)
or appends exactly the hashed document of its own valid input. -/
theorem register_db_shape (db : DB) (ou opw : Option String) (t : Nat) :
    ((register db ou opw t).2.1 = db ∧ (register db ou opw t).1.success = false) ∨
    (∃ u p, ou = some u ∧ opw = some p ∧ validInput u p = true ∧
      findOneD db u = none ∧
      (register db ou opw t).2.1 = db ++ [savedDocOf u p t] ∧
      (register db ou opw t).1 = resp201 u t) := by
  by_cases hfal : (falsy ou || falsy opw) = true
  · rw [register_eq_missing db ou opw t hfal]
    exact Or.inl ⟨rfl, rfl⟩
  · rcases ou with _ | u
    · exact absurd (by simp [falsy]) hfal
    rcases opw with _ | p
    · exact absurd (by simp [falsy]) hfal
    have hor : (u == "" || p == "") = false := by
      have heq : (falsy (some u) || falsy (some p)) = (u == "" || p == "") := rfl
      rw [heq] at hfal
      exact Bool.eq_false_iff.mpr hfal
    obtain ⟨hu, hp⟩ := Bool.or_eq_false_iff.mp hor
    cases hf : findOneD db u with
    | some d =>
      rw [register_eq_dup db u p t d hu hp hf]
      exact Or.inl ⟨rfl, rfl⟩
    | none =>
      by_cases hv : validInput u p = true
      · rw [register_eq_success db u p t hv hf]
        exact Or.inr ⟨u, p, rfl, rfl, hv, hf, rfl, rfl⟩
      · rw [register_eq_invalid db u p t hu hp (by simpa using hv) hf]
        exact Or.inl ⟨rfl, rfl⟩

theorem login_eq_invalidsave (db : DB) (u p : String) (t : Nat) (d : UserDoc)
    (hu : (u == "") = false) (hp : (p == "") = false)
    (hf : findOneD db u = some d)
    (hc : bcryptCompare p d.password = true)
    (hm : d.passwordModified = false) (hn : d.isNew = false)
    (hv : validateDoc { d with lastLogin := some t } = false) :
    login db (some u) (some p) t =
      (resp500login, db, [Ev.findOne u, Ev.comparePw p]) := by
  have hm' : ({ d with lastLogin := some t } : UserDoc).passwordModified = false := hm
  have hn' : ({ d with lastLogin := some t } : UserDoc).isNew = false := hn
  unfold login
  simp only [falsy, Option.getD_some, hu, hp, hf, hc]
  rw [save_clean_update db { d with lastLogin := some t } hm' hn']
  simp [hv]

/-- A successful login on a clean collection found its user, verified
the password, and wrote back only the `lastLogin` update. -/
theorem login_success_shape (db : DB) (ou opw : Option String) (t : Nat)
    (hclean : CleanDB db)
    (hs : (login db ou opw t).1.success = true) :
    ∃ u p d, ou = some u ∧ opw = some p ∧ findOneD db u = some d ∧
      bcryptCompare p d.password = true ∧ d.username = u ∧
      (login db ou opw t).2.1 = updateDoc db { d with lastLogin := some t } ∧
      (login db ou opw t).1 = resp200 u (some t) := by
  by_cases hfal : (falsy ou || falsy opw) = true
  · rw [login_eq_missing db ou opw t hfal] at hs
    exact absurd hs (by simp [resp400])
  · rcases ou with _ | u
    · exact absurd (by simp [falsy]) hfal
    rcases opw with _ | p
    · exact absurd (by simp [falsy]) hfal
    have hor : (u == "" || p == "") = false := by
      have heq : (falsy (some u) || falsy (some p)) = (u == "" || p == "") := rfl
      rw [heq] at hfal
      exact Bool.eq_false_iff.mpr hfal
    obtain ⟨hu, hp⟩ := Bool.or_eq_false_iff.mp hor
    cases hf : findOneD db u with
    | none =>
      rw [login_eq_notfound db u p t hu hp hf] at hs
      exact absurd hs (by simp [resp401])
    | some d =>
      obtain ⟨hm, hn⟩ := hclean d (List.mem_of_find?_eq_some hf)
      by_cases hc : bcryptCompare p d.password = true
      · by_cases hv : validateDoc { d with lastLogin := some t } = true
        · refine ⟨u, p, d, rfl, rfl, hf, hc, username_of_findOneD_some hf, ?_, ?_⟩ <;>
            rw [login_eq_success db u p t d hu hp hf hc hm hn hv]
        · rw [login_eq_invalidsave db u p t d hu hp hf hc hm hn
            (by simpa using hv)] at hs
          exact absurd hs (by simp [resp500login])
      · rw [login_eq_wrongpw db u p t d hu hp hf (by simpa using hc)] at hs
        exact absurd hs (by simp [resp401])

/-- Structural invariant of any run from the empty store: the store
stays clean, a username absent from the store has no successful-login
events, and a stored document's `lastLogin` is exactly the time of the
last successful login for that username (`none` if there has been
none). -/
theorem runOps_lastLogin (ops : List (AOp × Nat)) :
    CleanDB (runOps [] ops).1 ∧
    (∀ u, findOneD (runOps [] ops).1 u = none →
      loginsFor u (runOps [] ops).2 = []) ∧
    (∀ u d, findOneD (runOps [] ops).1 u = some d →
      d.lastLogin = (loginsFor u (runOps [] ops).2).getLast?) := by
  induction ops using List.reverseRecOn with
  | nil =>
    refine ⟨cleanDB_nil, ?_, ?_⟩
    · intro u _
      rfl
    · intro u d hd
      simp [runOps, findOneD] at hd
  | append_singleton ops op ih =>
    obtain ⟨ihc, ih2, ih3⟩ := ih
    rcases op with ⟨o, t⟩
    rw [runOps_append]
    simp only [runOps, List.append_nil]
    cases o with
    | reg uR pR =>
      simp only [applyOp]
      rcases register_db_shape (runOps [] ops).1 (some uR) (some pR) t with
        ⟨hdb, _⟩ | ⟨u0, p0, hou, _, _, hf0, hdb, _⟩
      · rw [hdb]
        simp only [List.append_nil]
        exact ⟨ihc, ih2, ih3⟩
      · obtain rfl : uR = u0 := by injection hou
        rw [hdb]
        simp only [List.append_nil]
        refine ⟨cleanDB_append_saved _ _ _ _ ihc, ?_, ?_⟩
        · intro u hnone
          exact ih2 u (findOneD_append_none hnone)
        · intro u d hd
          rcases findOneD_append_cases hd with hold | ⟨hnone, rfl, hux⟩
          · exact ih3 u d hold
          · simp [savedDocOf, ih2 u hnone]
    | logn uL pL =>
      simp only [applyOp]
      by_cases hs : (login (runOps [] ops).1 (some uL) (some pL) t).1.success = true
      · obtain ⟨u0, p0, d0, hou, _, hf0, _, hun0, hdb, _⟩ :=
          login_success_shape (runOps [] ops).1 (some uL) (some pL) t ihc hs
        obtain rfl : uL = u0 := by injection hou
        obtain ⟨hm0, hn0⟩ := ihc d0 (List.mem_of_find?_eq_some hf0)
        rw [hdb]
        simp only [hs, if_true]
        have hdclean1 : ({ d0 with lastLogin := some t } : UserDoc).passwordModified
            = false := hm0
        have hdclean2 : ({ d0 with lastLogin := some t } : UserDoc).isNew = false := hn0
        refine ⟨cleanDB_updateDoc _ _ ihc hdclean1 hdclean2, ?_, ?_⟩
        · intro u hnone
          rw [findOneD_updateDoc] at hnone
          have hnone' : findOneD (runOps [] ops).1 u = none := by
            cases hfu : findOneD (runOps [] ops).1 u with
            | none => rfl
            | some d1 =>
              rw [hfu] at hnone
              simp at hnone
          have hne : uL ≠ u := by
            intro heq
            rw [heq, hnone'] at hf0
            cases hf0
          rw [loginsFor_append, ih2 u hnone']
          simp [loginsFor, hne]
        · intro u d hd
          rw [findOneD_updateDoc] at hd
          cases hfu : findOneD (runOps [] ops).1 u with
          | none =>
            rw [hfu] at hd
            simp at hd
          | some d1 =>
            rw [hfu] at hd
            simp only [Option.map_some'] at hd
            have hud1 : d1.username = u := username_of_findOneD_some hfu
            by_cases huu : u = uL
            · subst huu
              have hd10 : d1 = d0 := by
                rw [hfu] at hf0
                injection hf0
              subst hd10
              have hbeq : (d1.username ==
                  ({ d1 with lastLogin := some t } : UserDoc).username) = true := by
                simp
              rw [if_pos hbeq] at hd
              rw [← Option.some.inj hd]
              rw [loginsFor_append]
              have hone : loginsFor u [(u, t)] = [t] := by
                simp [loginsFor]
              rw [hone, List.getLast?_concat]
            · have hbeq : (d1.username ==
                  ({ d0 with lastLogin := some t } : UserDoc).username) = false := by
                have : ({ d0 with lastLogin := some t } : UserDoc).username = uL := hun0
                rw [this, hud1]
                exact beq_eq_false_iff_ne.mpr huu
              rw [if_neg (by simp [hbeq])] at hd
              rw [← Option.some.inj hd]
              rw [loginsFor_append]
              have hnil : loginsFor u [(uL, t)] = [] := by
                simp only [loginsFor, List.filter]
                have : ((uL, t).1 == u) = false :=
                  beq_eq_false_iff_ne.mpr (fun hx => huu hx.symm)
                simp [this]
              rw [hnil, List.append_nil]
              exact ih3 u d1 hfu
      · have hsf : (login (runOps [] ops).1 (some uL) (some pL) t).1.success
            = false := by
          simpa using hs
        rw [login_fail_frame _ _ _ _ hsf]
        simp only [hsf, Bool.false_eq_true, if_false, List.append_nil]
        exact ⟨ihc, ih2, ih3⟩

/-- Each event's timestamp comes from the call that emitted it, so the
event timestamps form a sublist of the call timestamps. -/
theorem runOps_events_sublist (db : DB) (ops : List (AOp × Nat)) :
    ((runOps db ops).2.map Prod.snd).Sublist (ops.map Prod.snd) := by
  induction ops generalizing db with
  | nil => simp [runOps]
  | cons x rest ih =>
    rcases x with ⟨o, t⟩
    simp only [runOps, List.map_cons, List.map_append]
    cases o with
    | reg u p =>
      simp only [applyOp, List.map_nil, List.nil_append]
      exact (ih _).cons t
    | logn u p =>
      simp only [applyOp]
      by_cases hs : (login db (some u) (some p) t).1.success = true
      · simp only [hs, if_true, List.map_cons, List.map_nil, List.singleton_append]
        exact (ih _).cons₂ t
      · have hsf : (login db (some u) (some p) t).1.success = false := by
          simpa using hs
        simp only [hsf, Bool.false_eq_true, if_false, List.map_nil, List.nil_append]
        exact (ih _).cons t

theorem mem_of_getLast?_eq {l : List Nat} {t : Nat} (hl : l.getLast? = some t) :
    t ∈ l := by
  rcases List.mem_getLast?_eq_getLast (Option.mem_def.mpr hl) with ⟨h, heq⟩
  rw [heq]
  exact List.getLast_mem h

theorem pairwise_le_getLast : ∀ {l : List Nat} {t : Nat},
    l.Pairwise (fun a b => a ≤ b) → l.getLast? = some t → ∀ x ∈ l, x ≤ t
  | [], _, _, hl => by cases hl
  | [a], t, _, hl => by
    intro x hx
    have ha : a = t := by
      have hconst : ([a] : List Nat).getLast? = some a := rfl
      rw [hconst] at hl
      exact Option.some.inj hl
    have hxa : x = a := by simpa using hx
    rw [hxa, ha]
  | a :: b :: l, t, hp, hl => by
    rw [List.getLast?_cons_cons] at hl
    intro x hx
    rcases List.mem_cons.mp hx with rfl | hx'
    · exact (List.pairwise_cons.mp hp).1 t (mem_of_getLast?_eq hl)
    · exact pairwise_le_getLast (List.pairwise_cons.mp hp).2 hl x hx'

/-- C6: starting from the empty store and running any sequence of API
calls whose timestamps are non-decreasing, a stored user's `lastLogin`
equals the time of the user's last successful login — in particular it
is absent (`none`) exactly as long as the user has never successfully
logged in — and it is at least every earlier successful-login time for
that user, so each successful login moves it monotonically upward. -/
theorem lastLogin_absent_then_monotone (ops : List (AOp × Nat))
    (hmono : (ops.map Prod.snd).Pairwise (fun a b => a ≤ b))
    (u : String) (d : UserDoc)
    (hf : findOneD (runOps [] ops).1 u = some d) :
    d.lastLogin = (loginsFor u (runOps [] ops).2).getLast? ∧
    (d.lastLogin = none ↔ loginsFor u (runOps [] ops).2 = []) ∧
    (∀ t t', d.lastLogin = some t →
      t' ∈ loginsFor u (runOps [] ops).2 → t' ≤ t) := by
  obtain ⟨_, _, h3⟩ := runOps_lastLogin ops
  have hll := h3 u d hf
  have hsub : (loginsFor u (runOps [] ops).2).Sublist (ops.map Prod.snd) := by
    have h1 : (List.filter (fun e => e.1 == u) (runOps [] ops).2).Sublist
        (runOps [] ops).2 := List.filter_sublist _
    exact (h1.map Prod.snd).trans (runOps_events_sublist [] ops)
  have hpw : (loginsFor u (runOps [] ops).2).Pairwise (fun a b => a ≤ b) :=
    hmono.sublist hsub
  refine ⟨hll, ?_, ?_⟩
  · rw [hll]
    constructor
    · intro h
      exact List.getLast?_eq_none_iff.mp h
    · intro h
      rw [h]
      rfl
  · intro t t' hlt hmem
    rw [hll] at hlt
    exact pairwise_le_getLast hpw hlt t' hmem

theorem lastLogin_absent_then_monotone_witness :
    ({ savedDocOf "alice" "secret1" 1 with lastLogin := some 5 } : UserDoc).lastLogin =
      (loginsFor "alice" (runOps []
        [(AOp.reg "alice" "secret1", 1), (AOp.logn "alice" "secret1", 2),
          (AOp.logn "alice" "secret1", 5)]).2).getLast? ∧
    (({ savedDocOf "alice" "secret1" 1 with lastLogin := some 5 } : UserDoc).lastLogin
        = none ↔
      loginsFor "alice" (runOps []
        [(AOp.reg "alice" "secret1", 1), (AOp.logn "alice" "secret1", 2),
          (AOp.logn "alice" "secret1", 5)]).2 = []) ∧
    (∀ t t',
      ({ savedDocOf "alice" "secret1" 1 with lastLogin := some 5 } : UserDoc).lastLogin
          = some t →
      t' ∈ loginsFor "alice" (runOps []
        [(AOp.reg "alice" "secret1", 1), (AOp.logn "alice" "secret1", 2),
          (AOp.logn "alice" "secret1", 5)]).2 → t' ≤ t) :=
  lastLogin_absent_then_monotone
    [(AOp.reg "alice" "secret1", 1), (AOp.logn "alice" "secret1", 2),
      (AOp.logn "alice" "secret1", 5)]
    (by decide) "alice"
    { savedDocOf "alice" "secret1" 1 with lastLogin := some 5 }
    (by decide)

end ArtsWave
